import Mathlib

/-
Verification of the edit-session / autosave / roster core of a
collaborative document editor (a Next.js client application).

The definitions below are a shallow embedding of the relevant source
functions:

  * `debounceRun`             — the `debounce` utility of
                                `src/components/document-editor.tsx` (lines 68-75),
                                run over a sequence of timestamped calls with a
                                virtual millisecond clock;
  * `updateDocument`          — `updateDocument` of `src/unnamed/part_001`
                                (lines 56-80): optimistic in-memory update,
                                persistence call, error toast on failure;
  * `saveDocumentFlush`       — the debounced body of `saveDocument` in
                                `src/components/document-editor.tsx` (lines 128-139);
  * `handleContentChange`     — `document-editor.tsx` lines 141-143;
  * `scheduleFlush`           — the autosave effect, `document-editor.tsx`
                                lines 145-149;
  * `handleInviteCollaborator`, `removeCollaborator`, `updateCollaboratorRole`
                              — the roster mutations, `document-editor.tsx`
                                lines 151-190;
  * `currentUserRole`         — `document-editor.tsx` lines 219-222;
  * `handleUpdate`            — the rich-text editor's onChange gate,
                                `src/unnamed/part_006` lines 71-81;
  * `filteredDocuments`       — `src/components/dashboard.tsx` lines 131-133.

Timestamps are modelled as natural numbers (milliseconds); strings are
modelled with Lean `String` except where character-level reasoning is
needed (the dashboard search), where `List Char` is used.
-/

namespace DocsClone

/-- Collaborator roles, from the union type in `document-editor.tsx`. -/
inductive Role
  | owner
  | editor
  | viewer
deriving DecidableEq, Repr

/-- Collaborator record (`document-editor.tsx` lines 51-60).  `lastSeen` and
`cursor` are optional fields in the source and irrelevant to the autosave and
roster logic, but are kept for fidelity. -/
structure Collaborator where
  id : String
  name : String
  email : String
  avatar : String
  role : Role
  isOnline : Bool
  lastSeen : Option Nat := none
  cursor : Option (Nat × Nat) := none
deriving DecidableEq, Repr

/-- Document record (`document-editor.tsx` lines 42-49). -/
structure Document where
  id : String
  title : String
  content : String
  createdAt : Nat
  updatedAt : Nat
  collaborators : List String
deriving DecidableEq, Repr

/- ----------------------------------------------------------------
   Debouncer (document-editor.tsx lines 68-75)

   function debounce(func, wait) \x7b
     let timeout
     return function (...args) \x7b
       clearTimeout(timeout)
       timeout = setTimeout(() => func.apply(context, args), wait)
     \x7d
   \x7d

   Each call cancels the pending timer (if it has not fired yet) and
   schedules the callback with the latest arguments `wait` ms later.
   We run a list of timestamped calls through this closure.  The state
   carried along is the pending timer: `some (expiry, args)` or `none`.
   A pending timer whose expiry is at or before the next call's time has
   already fired by the time that call runs `clearTimeout`; otherwise it
   is cancelled.  After the last call, the remaining pending timer fires.
   The result is the list of argument values the callback was invoked
   with, in firing order.
   ---------------------------------------------------------------- -/

/-- Run timestamped calls `(t, args)` through the `debounce` closure,
starting from pending timer `p`; returns the flushed argument values. -/
def debounceRun {α : Type} (wait : Nat) (p : Option (Nat × α)) :
    List (Nat × α) → List α
  | [] =>
    match p with
    | some (_, a) => [a]
    | none => []
  | (t, a) :: rest =>
    match p with
    | some (e, b) =>
      if e ≤ t then b :: debounceRun wait (some (t + wait, a)) rest
      else debounceRun wait (some (t + wait, a)) rest
    | none => debounceRun wait (some (t + wait, a)) rest

lemma debounceRun_nil_none {α : Type} (wait : Nat) :
    debounceRun (α := α) wait none [] = [] := rfl

lemma debounceRun_nil_some {α : Type} (wait e : Nat) (a : α) :
    debounceRun wait (some (e, a)) [] = [a] := rfl

lemma debounceRun_cons_none {α : Type} (wait t : Nat) (a : α)
    (rest : List (Nat × α)) :
    debounceRun wait none ((t, a) :: rest) =
      debounceRun wait (some (t + wait, a)) rest := rfl

lemma debounceRun_cons_lt {α : Type} (wait e t : Nat) (a b : α)
    (rest : List (Nat × α)) (h : t < e) :
    debounceRun wait (some (e, b)) ((t, a) :: rest) =
      debounceRun wait (some (t + wait, a)) rest := by
  simp [debounceRun, Nat.not_le.mpr h]

/-- Within one quiet period (each call strictly before the previous timer's
expiry), the run from an empty pending state flushes exactly the last call's
arguments. -/
lemma debounceRun_chain {α : Type} (wait : Nat) :
    ∀ (t : Nat) (a : α) (rest : List (Nat × α)),
      List.Chain' (fun p q => q.1 < p.1 + wait) ((t, a) :: rest) →
      debounceRun wait none ((t, a) :: rest) =
        [(((t, a) :: rest).getLast (List.cons_ne_nil _ _)).2] := by
  intro t a rest
  induction rest generalizing t a with
  | nil =>
    intro _
    simp [debounceRun]
  | cons hd tl ih =>
    intro hchain
    obtain ⟨t', a'⟩ := hd
    have h1 : t' < t + wait := (List.chain'_cons.mp hchain).1
    have h2 : List.Chain' (fun p q => q.1 < p.1 + wait) ((t', a') :: tl) :=
      (List.chain'_cons.mp hchain).2
    rw [debounceRun_cons_none, debounceRun_cons_lt wait (t + wait) t' a' a tl h1]
    rw [← debounceRun_cons_none]
    rw [ih t' a' h2]
    simp [List.getLast]

/-- C1: Debounce coalescing.  For every nonempty sequence of timestamped
`(title, content)` notifications that all fall within one quiet period
(every call arrives strictly before the 3000 ms timer set by the previous
one expires), exactly one flush fires, and it carries the title and content
of the last call; superseded values are never flushed. -/
theorem debounce_coalescing (calls : List (Nat × (String × String)))
    (hne : calls ≠ [])
    (hq : List.Chain' (fun p q => q.1 < p.1 + 3000) calls) :
    debounceRun 3000 none calls = [(calls.getLast hne).2] := by
  match calls, hne with
  | (t, a) :: rest, _ => exact debounceRun_chain 3000 t a rest hq

/-- Witness for C1: three rapid edits coalesce into one flush carrying the
last title and content. -/
theorem debounce_coalescing_witness :
    debounceRun 3000 none
      [(0, ("Q", "x")), (1000, ("Q3", "y")), (2500, ("Q3 Plan", "<p>Draft</p>"))] =
      [("Q3 Plan", "<p>Draft</p>")] := by
  have h := debounce_coalescing
    [(0, ("Q", "x")), (1000, ("Q3", "y")), (2500, ("Q3 Plan", "<p>Draft</p>"))]
    (by decide) (by norm_num [List.chain'_cons])
  simpa using h

/- ----------------------------------------------------------------
   Autosave controller: updateDocument (src/unnamed/part_001, lines 56-80)
   and the debounced saveDocument body (document-editor.tsx, lines 128-139).
   ---------------------------------------------------------------- -/

/-- Result of the external persistence call (the supabase `update ... select
... single` in `updateDocument`): the saved row, or an error message. -/
inductive PersistResult
  | ok (d : Document)
  | err (msg : String)
deriving DecidableEq, Repr

/-- The `updates : Partial<Document>` argument of `updateDocument`; the editor
only ever passes title and content. -/
structure DocUpdates where
  title : Option String := none
  content : Option String := none
deriving DecidableEq, Repr

/-- Spread-merge of the updates into the document, as in
`\x7b ...document, ...updates \x7d`. -/
def applyUpdates (d : Document) (u : DocUpdates) : Document :=
  { d with title := u.title.getD d.title, content := u.content.getD d.content }

/-- Outcome of one `updateDocument` call: the page's document state after the
call and the number of error notifications emitted. -/
structure UpdateResult where
  doc : Document
  errorToasts : Nat
deriving DecidableEq, Repr

/-- `updateDocument` (src/unnamed/part_001, lines 56-80).  It builds
`updatedDoc = \x7b ...document, ...updates, updatedAt: new Date() \x7d`, stores it
in the page state (`setDocument(updatedDoc)`) BEFORE the persistence call,
then awaits the database update; on error it emits one destructive toast and
leaves the already-updated page state alone.  `now` is the value of
`new Date()` and `persist` the database call. -/
def updateDocument (doc : Document) (u : DocUpdates) (now : Nat)
    (persist : Document → PersistResult) : UpdateResult :=
  let updatedDoc := { applyUpdates doc u with updatedAt := now }
  match persist updatedDoc with
  | .ok _ => { doc := updatedDoc, errorToasts := 0 }
  | .err _ => { doc := updatedDoc, errorToasts := 1 }

/-- Local state of the editor component: the `title`, `content`, `isSaving`
and `lastSaved` React state cells of `DocumentEditor`. -/
structure EditorState where
  title : String
  content : String
  isSaving : Bool
  lastSaved : Nat
deriving DecidableEq, Repr

/-- The debounced body of `saveDocument` (document-editor.tsx, lines 128-139)
composed with its `onUpdate` collaborator (`updateDocument`):

  setIsSaving(true);
  try \x7b onUpdate(\x7btitle, content\x7d); setLastSaved(new Date()) \x7d
  finally \x7b setIsSaving(false) \x7d

`onUpdate` is an async function whose errors are handled internally (it never
throws into this body) and it is not awaited, so `setLastSaved` runs and
`isSaving` is cleared whatever the persistence outcome. -/
def saveDocumentFlush (st : EditorState) (titleToSave contentToSave : String)
    (doc : Document) (now : Nat) (persist : Document → PersistResult) :
    EditorState × UpdateResult :=
  ({ st with isSaving := false, lastSaved := now },
   updateDocument doc { title := some titleToSave, content := some contentToSave }
     now persist)

/-- C2 counterexample: the claim says that when the persistence call fails,
`lastSaved` is unchanged and the state returns to Dirty.  In the code a failed
flush still advances `lastSaved` to the flush time (the debounced body never
sees the failure), so starting from `lastSaved = 5` a failing flush at time 10
leaves `lastSaved = 10`, not 5. -/
theorem failed_save_atomicity_cex :
    (saveDocumentFlush ⟨"t", "c", false, 5⟩ "t2" "c2"
        ⟨"d1", "t", "c", 0, 5, []⟩ 10 (fun _ => PersistResult.err "boom")).1.lastSaved
      = 10 ∧ (10 : Nat) ≠ 5 := by
  constructor
  · rfl
  · decide

/-- C2 amended: when the persistence call fails during a flush, exactly one
error notification is emitted and the editor's in-memory title/content buffer
is untouched, but `lastSaved` IS advanced to the flush time, `isSaving` is
cleared (the UI shows the document as saved — there is no Dirty state), and
the page's document is left at the optimistically updated value. -/
theorem failed_save_behavior (st : EditorState) (ts cs : String)
    (doc : Document) (now : Nat) (persist : Document → PersistResult)
    (msg : String) (hfail : ∀ d, persist d = PersistResult.err msg) :
    (saveDocumentFlush st ts cs doc now persist).2.errorToasts = 1 ∧
    (saveDocumentFlush st ts cs doc now persist).1.title = st.title ∧
    (saveDocumentFlush st ts cs doc now persist).1.content = st.content ∧
    (saveDocumentFlush st ts cs doc now persist).1.isSaving = false ∧
    (saveDocumentFlush st ts cs doc now persist).1.lastSaved = now ∧
    (saveDocumentFlush st ts cs doc now persist).2.doc =
      { doc with title := ts, content := cs, updatedAt := now } := by
  refine ⟨?_, rfl, rfl, rfl, rfl, ?_⟩ <;>
    simp [saveDocumentFlush, updateDocument, applyUpdates, hfail]

/-- Witness for the amended C2 theorem at a concrete failing flush. -/
theorem failed_save_behavior_witness :
    (saveDocumentFlush ⟨"t", "c", false, 5⟩ "t2" "c2"
        ⟨"d1", "t", "c", 0, 5, []⟩ 10 (fun _ => PersistResult.err "x")).2.errorToasts = 1 ∧
    (saveDocumentFlush ⟨"t", "c", false, 5⟩ "t2" "c2"
        ⟨"d1", "t", "c", 0, 5, []⟩ 10 (fun _ => PersistResult.err "x")).1.title = "t" ∧
    (saveDocumentFlush ⟨"t", "c", false, 5⟩ "t2" "c2"
        ⟨"d1", "t", "c", 0, 5, []⟩ 10 (fun _ => PersistResult.err "x")).1.content = "c" ∧
    (saveDocumentFlush ⟨"t", "c", false, 5⟩ "t2" "c2"
        ⟨"d1", "t", "c", 0, 5, []⟩ 10 (fun _ => PersistResult.err "x")).1.isSaving = false ∧
    (saveDocumentFlush ⟨"t", "c", false, 5⟩ "t2" "c2"
        ⟨"d1", "t", "c", 0, 5, []⟩ 10 (fun _ => PersistResult.err "x")).1.lastSaved = 10 ∧
    (saveDocumentFlush ⟨"t", "c", false, 5⟩ "t2" "c2"
        ⟨"d1", "t", "c", 0, 5, []⟩ 10 (fun _ => PersistResult.err "x")).2.doc =
      { id := "d1", title := "t2", content := "c2", createdAt := 0, updatedAt := 10,
        collaborators := [] } :=
  failed_save_behavior ⟨"t", "c", false, 5⟩ "t2" "c2" ⟨"d1", "t", "c", 0, 5, []⟩
    10 (fun _ => PersistResult.err "x") "x" (fun _ => rfl)

/-- C4 counterexample: the claim says `updatedAt` is rewritten only after the
persistence collaborator confirms the save.  In the code `updateDocument` sets
`updatedAt` to the local current time and stores the document before the
persistence call; with a failing persistence call (which never confirms),
`updatedAt` still moves from 5 to 10. -/
theorem updatedAt_optimistic_cex :
    (updateDocument ⟨"d1", "t", "c", 0, 5, []⟩ ⟨some "t2", none⟩ 10
        (fun _ => PersistResult.err "x")).doc.updatedAt = 10 ∧ (10 : Nat) ≠ 5 := by
  constructor
  · rfl
  · decide

/-- C4 amended: `updateDocument` always rewrites `updatedAt` to the local
current time, optimistically before the persistence outcome is known and
regardless of it; the value is monotonically non-decreasing provided the
local clock is (the old `updatedAt` is at most `now`). -/
theorem updatedAt_behavior (doc : Document) (u : DocUpdates) (now : Nat)
    (persist : Document → PersistResult) (hclock : doc.updatedAt ≤ now) :
    (updateDocument doc u now persist).doc.updatedAt = now ∧
    doc.updatedAt ≤ (updateDocument doc u now persist).doc.updatedAt := by
  have h : (updateDocument doc u now persist).doc.updatedAt = now := by
    unfold updateDocument
    dsimp only
    split <;> rfl
  exact ⟨h, le_of_le_of_eq hclock h.symm⟩

/-- Witness for the amended C4 theorem: a failing save at time 10 still sets
`updatedAt` to 10, which is not below the previous value 5. -/
theorem updatedAt_behavior_witness :
    (updateDocument ⟨"d1", "t", "c", 0, 5, []⟩ ⟨some "t2", none⟩ 10
        (fun _ => PersistResult.err "x")).doc.updatedAt = 10 ∧
    (5 : Nat) ≤ (updateDocument ⟨"d1", "t", "c", 0, 5, []⟩ ⟨some "t2", none⟩ 10
        (fun _ => PersistResult.err "x")).doc.updatedAt :=
  updatedAt_behavior ⟨"d1", "t", "c", 0, 5, []⟩ ⟨some "t2", none⟩ 10
    (fun _ => PersistResult.err "x") (by decide)

/- ----------------------------------------------------------------
   Role derivation and the edit path
   (document-editor.tsx lines 141-149, 219-222, 254, 619;
    src/unnamed/part_006 lines 71-81).
   ---------------------------------------------------------------- -/

/-- `currentUserRole` (document-editor.tsx lines 219-222):
`collaborators.find((c) => c.id === user?.id)?.role || "viewer"`.
`uid` is `user?.id` (`none` when no user is logged in; `c.id === undefined`
is false for every entry, so the default applies). -/
def currentUserRole (roster : List Collaborator) (uid : Option String) : Role :=
  match roster.find? (fun c => decide (some c.id = uid)) with
  | some c => c.role
  | none => Role.viewer

/-- `handleContentChange` (document-editor.tsx lines 141-143): stores the new
content in the `content` state cell unconditionally; the acting user's role is
not consulted anywhere in the function. -/
def handleContentChange (st : EditorState) (newContent : String) : EditorState :=
  { st with content := newContent }

/-- The autosave effect (document-editor.tsx lines 145-149): invokes the
debounced `saveDocument(title, content)` iff the title or the content differs
from the loaded document's value; returns the scheduled arguments, or `none`
when nothing is scheduled. -/
def scheduleFlush (doc : Document) (title content : String) :
    Option (String × String) :=
  if title ≠ doc.title ∨ content ≠ doc.content then some (title, content)
  else none

/-- The `readOnly` flag the editor passes to the rich-text primitive
(document-editor.tsx line 619): `currentUserRole === "viewer"`. -/
def editorReadOnly (roster : List Collaborator) (uid : Option String) : Bool :=
  decide (currentUserRole roster uid = Role.viewer)

/-- `handleUpdate` of the rich-text editor (src/unnamed/part_006, lines
71-81): forwards the new markup through `onChange` only when not `readOnly`;
returns the value passed to `onChange`, or `none` when suppressed. -/
def handleUpdate (readOnly : Bool) (html : String) : Option String :=
  if readOnly then none else some html

/-- C3 counterexample: with a roster in which the acting user "u4" is a
viewer, calling `handleContentChange` still changes the in-memory state and
the autosave effect still schedules the debouncer — the core performs no role
check and no PermissionDenied condition exists. -/
theorem viewer_gating_cex :
    currentUserRole
        [⟨"u1", "You", "you@example.com", "a1", Role.owner, true, none, none⟩,
         ⟨"u4", "Emily Davis", "emily@company.com", "a4", Role.viewer, true, none, none⟩]
        (some "u4") = Role.viewer ∧
    (handleContentChange ⟨"t", "c", false, 0⟩ "new").content ≠ "c" ∧
    scheduleFlush ⟨"d1", "t", "c", 0, 0, []⟩ "t" "new" = some ("t", "new") := by
  refine ⟨by decide, by decide, ?_⟩
  simp [scheduleFlush]

/-- C3 amended: the core's mutation entry point is not role-gated —
`handleContentChange` updates the content for every caller (its result does
not depend on any role) and the effect schedules the debouncer whenever the
value differs; the only viewer gating is in the presentation layer: the
rich-text primitive is rendered with `readOnly = (currentUserRole = viewer)`
and its `handleUpdate` suppresses `onChange` exactly when `readOnly` holds. -/
theorem viewer_gating_amended (roster : List Collaborator) (uid : Option String)
    (st : EditorState) (doc : Document) (newContent html : String)
    (hviewer : currentUserRole roster uid = Role.viewer)
    (hdiff : newContent ≠ doc.content) :
    (handleContentChange st newContent).content = newContent ∧
    scheduleFlush doc doc.title newContent = some (doc.title, newContent) ∧
    handleUpdate (editorReadOnly roster uid) html = none := by
  refine ⟨rfl, ?_, ?_⟩
  · simp [scheduleFlush, hdiff]
  · simp [handleUpdate, editorReadOnly, hviewer]

/-- Witness for the amended C3 theorem at a concrete viewer roster. -/
theorem viewer_gating_amended_witness :
    (handleContentChange ⟨"t", "c", false, 0⟩ "new").content = "new" ∧
    scheduleFlush ⟨"d1", "t", "c", 0, 0, []⟩ "t" "new" = some ("t", "new") ∧
    handleUpdate
      (editorReadOnly
        [⟨"u1", "You", "you@example.com", "a1", Role.owner, true, none, none⟩,
         ⟨"u4", "Emily Davis", "emily@company.com", "a4", Role.viewer, true, none, none⟩]
        (some "u4"))
      "<p>x</p>" = none :=
  viewer_gating_amended
    [⟨"u1", "You", "you@example.com", "a1", Role.owner, true, none, none⟩,
     ⟨"u4", "Emily Davis", "emily@company.com", "a4", Role.viewer, true, none, none⟩]
    (some "u4") ⟨"t", "c", false, 0⟩ ⟨"d1", "t", "c", 0, 0, []⟩ "new" "<p>x</p>"
    (by decide) (by decide)

/-- C5: fail-closed role derivation.  If the acting id is absent from the
roster, `currentUserRole` returns `viewer`; and if every entry carrying the
designated owner's id has role `owner` and at least one such entry exists,
looking up that id returns `owner`. -/
theorem effectiveRole_fail_closed (roster : List Collaborator) (uid : String) :
    ((∀ c ∈ roster, c.id ≠ uid) →
      currentUserRole roster (some uid) = Role.viewer) ∧
    ((∃ c ∈ roster, c.id = uid) →
      (∀ c ∈ roster, c.id = uid → c.role = Role.owner) →
      currentUserRole roster (some uid) = Role.owner) := by
  constructor
  · intro habs
    have hfind : roster.find? (fun c => decide (some c.id = some uid)) = none := by
      rw [List.find?_eq_none]
      intro c hc
      simpa using habs c hc
    unfold currentUserRole
    rw [hfind]
  · intro hex hown
    induction roster with
    | nil => simp at hex
    | cons hd tl ih =>
      by_cases hid : hd.id = uid
      · have : currentUserRole (hd :: tl) (some uid) = hd.role := by
          simp [currentUserRole, List.find?_cons, hid]
        rw [this]
        exact hown hd (List.mem_cons_self hd tl) hid
      · have hstep : currentUserRole (hd :: tl) (some uid) =
            currentUserRole tl (some uid) := by
          simp [currentUserRole, List.find?_cons, hid]
        rw [hstep]
        rcases hex with ⟨c, hc, hcid⟩
        rcases List.mem_cons.mp hc with hhd | htl
        · exact absurd (hhd ▸ hcid) hid
        · exact ih ⟨c, htl, hcid⟩ (fun c hc h => hown c (List.mem_cons_of_mem _ hc) h)

/-- Witness for C5: an unknown id "ghost" derives `viewer`, and the owner's
id "u1" derives `owner`, on a concrete roster. -/
theorem effectiveRole_fail_closed_witness :
    currentUserRole
        [⟨"u1", "You", "you@example.com", "a1", Role.owner, true, none, none⟩,
         ⟨"u2", "Sarah", "sarah@company.com", "a2", Role.editor, true, none, none⟩]
        (some "ghost") = Role.viewer ∧
    currentUserRole
        [⟨"u1", "You", "you@example.com", "a1", Role.owner, true, none, none⟩,
         ⟨"u2", "Sarah", "sarah@company.com", "a2", Role.editor, true, none, none⟩]
        (some "u1") = Role.owner :=
  ⟨(effectiveRole_fail_closed
      [⟨"u1", "You", "you@example.com", "a1", Role.owner, true, none, none⟩,
       ⟨"u2", "Sarah", "sarah@company.com", "a2", Role.editor, true, none, none⟩]
      "ghost").1 (by decide),
   (effectiveRole_fail_closed
      [⟨"u1", "You", "you@example.com", "a1", Role.owner, true, none, none⟩,
       ⟨"u2", "Sarah", "sarah@company.com", "a2", Role.editor, true, none, none⟩]
      "u1").2 ⟨_, List.mem_cons_self _ _, rfl⟩ (by decide)⟩

/-- C6: save idempotence.  The autosave effect schedules no flush exactly
when both the title and the content equal the loaded document's values; in
particular an unchanged document never enters the Saving state. -/
theorem edit_idempotence (doc : Document) (title content : String) :
    scheduleFlush doc title content = none ↔
      (title = doc.title ∧ content = doc.content) := by
  simp only [scheduleFlush, ite_eq_right_iff]
  constructor
  · intro h
    by_contra hne
    rcases not_and_or.mp hne with h1 | h1
    · exact Option.some_ne_none _ (h (Or.inl h1))
    · exact Option.some_ne_none _ (h (Or.inr h1))
  · intro ⟨h1, h2⟩ hor
    rcases hor with h | h <;> [exact absurd h1 h; exact absurd h2 h]

/- ----------------------------------------------------------------
   Roster mutations (document-editor.tsx lines 151-190).
   ---------------------------------------------------------------- -/

/-- The local part of an email, `email.split("@")[0]` in
`handleInviteCollaborator`. -/
def emailLocalPart (email : String) : String :=
  ⟨email.toList.takeWhile (fun ch => ch ≠ '@')⟩

/-- The avatar URL built for a new collaborator in
`handleInviteCollaborator`. -/
def avatarUrl (email : String) : String :=
  "https://api.dicebear.com/7.x/avataaars/svg?seed=" ++ email

/-- The `newCollaborator` object built by `handleInviteCollaborator`
(document-editor.tsx lines 157-164); `newId` stands for
`Date.now().toString()`.  The role is stored exactly as passed; `isOnline` is
false; `lastSeen` and `cursor` are not set. -/
def mkInvited (newId email : String) (role : Role) : Collaborator :=
  { id := newId
    name := emailLocalPart email
    email := email
    avatar := avatarUrl email
    role := role
    isOnline := false }

/-- `handleInviteCollaborator` (document-editor.tsx lines 151-174): returns
early when the email field is empty, otherwise appends the new collaborator
to the roster.  There is no validation of the requested role at runtime; the
restriction to editor/viewer lives only in the TypeScript type of
`inviteRole` and in the options offered by the invite dialog. -/
def handleInviteCollaborator (roster : List Collaborator)
    (newId email : String) (role : Role) : List Collaborator :=
  if email = "" then roster else roster ++ [mkInvited newId email role]

/-- `removeCollaborator` (document-editor.tsx lines 176-182):
`prev.filter((c) => c.id !== collaboratorId)` — removes every entry with the
given id, with no check of the target's role and no failure path. -/
def removeCollaborator (roster : List Collaborator) (cid : String) :
    List Collaborator :=
  roster.filter (fun c => decide (c.id ≠ cid))

/-- `updateCollaboratorRole` (document-editor.tsx lines 184-190):
`prev.map((c) => (c.id === collaboratorId ? \x7b ...c, role: newRole \x7d : c))` —
rewrites the role of every entry with the given id, with no check that the
target is not the owner. -/
def updateCollaboratorRole (roster : List Collaborator) (cid : String)
    (newRole : Role) : List Collaborator :=
  roster.map (fun c => if c.id = cid then { c with role := newRole } else c)

/-- C7 counterexample: the claim says removing the owner's id fails with
CannotRemoveOwner and leaves the roster unchanged.  On a two-entry roster
whose owner has id "u1", `removeCollaborator` with "u1" deletes the owner:
the result has one entry and no owner, and no error of any kind is raised
(the function has no failure path at all). -/
theorem remove_owner_cex :
    removeCollaborator
        [⟨"u1", "You", "you@example.com", "a1", Role.owner, true, none, none⟩,
         ⟨"u2", "Sarah", "sarah@company.com", "a2", Role.editor, true, none, none⟩]
        "u1" =
      [⟨"u2", "Sarah", "sarah@company.com", "a2", Role.editor, true, none, none⟩] ∧
    (removeCollaborator
        [⟨"u1", "You", "you@example.com", "a1", Role.owner, true, none, none⟩,
         ⟨"u2", "Sarah", "sarah@company.com", "a2", Role.editor, true, none, none⟩]
        "u1").length ≠ 2 := by
  constructor
  · rfl
  · decide

/-- C7 amended: `removeCollaborator` never fails and never special-cases the
owner; it removes exactly the entries whose id matches the argument (so for a
non-owner id it removes exactly that collaborator, and for the owner's id it
removes the owner).  Owner protection exists only in the presentation layer,
which renders the remove button solely on non-owner rows. -/
theorem remove_behavior (roster : List Collaborator) (cid : String)
    (c : Collaborator) :
    c ∈ removeCollaborator roster cid ↔ (c ∈ roster ∧ c.id ≠ cid) := by
  simp [removeCollaborator, List.mem_filter]

/-- C9 counterexample: the claim says inviting with role owner fails with
InvalidRole and leaves the roster unchanged.  In the code the call appends a
new collaborator whose stored role is owner, and no error exists. -/
theorem invite_owner_cex :
    handleInviteCollaborator
        [⟨"u1", "You", "you@example.com", "a1", Role.owner, true, none, none⟩]
        "99" "a@b.com" Role.owner =
      [⟨"u1", "You", "you@example.com", "a1", Role.owner, true, none, none⟩,
       mkInvited "99" "a@b.com" Role.owner] ∧
    (mkInvited "99" "a@b.com" Role.owner).role = Role.owner ∧
    handleInviteCollaborator
        [⟨"u1", "You", "you@example.com", "a1", Role.owner, true, none, none⟩]
        "99" "a@b.com" Role.owner ≠
      [⟨"u1", "You", "you@example.com", "a1", Role.owner, true, none, none⟩] := by
  refine ⟨rfl, rfl, ?_⟩
  decide

/-- C9 amended: `handleInviteCollaborator` performs no dynamic role
validation — for any nonempty email it appends a collaborator that stores the
requested role verbatim (the editor/viewer restriction is only the TypeScript
type of `inviteRole` and the dialog's option list), every invited collaborator
is created with `isOnline = false`, and an empty email is a no-op. -/
theorem invite_behavior (roster : List Collaborator) (newId email : String)
    (role : Role) (hne : email ≠ "") :
    handleInviteCollaborator roster newId email role =
      roster ++ [mkInvited newId email role] ∧
    (mkInvited newId email role).isOnline = false ∧
    (mkInvited newId email role).role = role ∧
    handleInviteCollaborator roster newId "" role = roster := by
  refine ⟨?_, rfl, rfl, rfl⟩
  simp [handleInviteCollaborator, hne]

/-- Witness for the amended C9 theorem at a concrete invite. -/
theorem invite_behavior_witness :
    handleInviteCollaborator
        [⟨"u1", "You", "you@example.com", "a1", Role.owner, true, none, none⟩]
        "99" "a@b.com" Role.editor =
      [⟨"u1", "You", "you@example.com", "a1", Role.owner, true, none, none⟩] ++
        [mkInvited "99" "a@b.com" Role.editor] ∧
    (mkInvited "99" "a@b.com" Role.editor).isOnline = false ∧
    (mkInvited "99" "a@b.com" Role.editor).role = Role.editor ∧
    handleInviteCollaborator
        [⟨"u1", "You", "you@example.com", "a1", Role.owner, true, none, none⟩]
        "99" "" Role.editor =
      [⟨"u1", "You", "you@example.com", "a1", Role.owner, true, none, none⟩] :=
  invite_behavior
    [⟨"u1", "You", "you@example.com", "a1", Role.owner, true, none, none⟩]
    "99" "a@b.com" Role.editor (by decide)

/- ----------------------------------------------------------------
   Sequences of roster operations (for the exactly-one-owner claim).
   ---------------------------------------------------------------- -/

/-- One roster mutation, as exposed by the editor component. -/
inductive RosterOp
  | invite (newId email : String) (role : Role)
  | remove (cid : String)
  | changeRole (cid : String) (newRole : Role)
deriving DecidableEq, Repr

/-- Apply one roster operation via the corresponding source function. -/
def applyOp (roster : List Collaborator) : RosterOp → List Collaborator
  | .invite nid em r => handleInviteCollaborator roster nid em r
  | .remove cid => removeCollaborator roster cid
  | .changeRole cid r => updateCollaboratorRole roster cid r

/-- Apply a sequence of roster operations, oldest first. -/
def applyOps (roster : List Collaborator) (ops : List RosterOp) :
    List Collaborator :=
  ops.foldl applyOp roster

/-- The entries of a roster whose role is `owner`. -/
def ownerEntries (roster : List Collaborator) : List Collaborator :=
  roster.filter (fun c => decide (c.role = Role.owner))

/-- The restriction the presentation layer actually enforces on roster
operations: the invite dialog and the role select only offer editor/viewer,
and remove/role controls are rendered only on non-owner rows (so they never
target the owner's id). -/
def opSafe (ownerId : String) : RosterOp → Bool
  | .invite _ _ r => decide (r ≠ Role.owner)
  | .remove cid => decide (cid ≠ ownerId)
  | .changeRole cid r => decide (cid ≠ ownerId) && decide (r ≠ Role.owner)

lemma ownerEntries_nil : ownerEntries [] = [] := rfl

lemma ownerEntries_cons (c : Collaborator) (cs : List Collaborator) :
    ownerEntries (c :: cs) =
      if c.role = Role.owner then c :: ownerEntries cs else ownerEntries cs := by
  by_cases hc : c.role = Role.owner <;> simp [ownerEntries, List.filter_cons, hc]

lemma ownerEntries_append (l₁ l₂ : List Collaborator) :
    ownerEntries (l₁ ++ l₂) = ownerEntries l₁ ++ ownerEntries l₂ := by
  simp [ownerEntries, List.filter_append]

lemma ownerEntries_invite (roster : List Collaborator) (ow : Collaborator)
    (nid em : String) (r : Role) (hr : r ≠ Role.owner)
    (h : ownerEntries roster = [ow]) :
    ownerEntries (handleInviteCollaborator roster nid em r) = [ow] := by
  unfold handleInviteCollaborator
  split
  · exact h
  · rw [ownerEntries_append, h]
    simp [ownerEntries, mkInvited, hr]

lemma ownerEntries_remove (roster : List Collaborator) (ow : Collaborator)
    (cid : String) (hx : ow.id ≠ cid) (h : ownerEntries roster = [ow]) :
    ownerEntries (removeCollaborator roster cid) = [ow] := by
  induction roster with
  | nil => simp [ownerEntries] at h
  | cons c cs ih =>
    by_cases hc : c.role = Role.owner
    · rw [ownerEntries_cons, if_pos hc] at h
      obtain ⟨hcow, hnil⟩ : c = ow ∧ ownerEntries cs = [] := by simpa using h
      have hcid : c.id ≠ cid := by rw [hcow]; exact hx
      have hkept : removeCollaborator (c :: cs) cid =
          c :: removeCollaborator cs cid := by
        simp [removeCollaborator, List.filter_cons, hcid]
      rw [hkept, ownerEntries_cons, if_pos hc, hcow]
      have : ownerEntries (removeCollaborator cs cid) = [] := by
        rw [List.eq_nil_iff_forall_not_mem] at hnil ⊢
        intro x hx'
        have hx'' : x ∈ ownerEntries cs := by
          simp only [ownerEntries, removeCollaborator, List.mem_filter] at hx' ⊢
          exact ⟨hx'.1.1, hx'.2⟩
        exact hnil x hx''
      rw [this]
    · rw [ownerEntries_cons, if_neg hc] at h
      by_cases hcid : c.id = cid
      · have : removeCollaborator (c :: cs) cid = removeCollaborator cs cid := by
          simp [removeCollaborator, List.filter_cons, hcid]
        rw [this]
        exact ih h
      · have : removeCollaborator (c :: cs) cid =
            c :: removeCollaborator cs cid := by
          simp [removeCollaborator, List.filter_cons, hcid]
        rw [this, ownerEntries_cons, if_neg hc]
        exact ih h

lemma ownerEntries_update_nil (cs : List Collaborator) (cid : String) (r : Role)
    (hr : r ≠ Role.owner) (h : ownerEntries cs = []) :
    ownerEntries (updateCollaboratorRole cs cid r) = [] := by
  induction cs with
  | nil => rfl
  | cons c cs ih =>
    have hc : ¬(c.role = Role.owner) := by
      intro hc
      rw [ownerEntries_cons, if_pos hc] at h
      exact List.cons_ne_nil _ _ h
    rw [ownerEntries_cons, if_neg hc] at h
    have hstep : updateCollaboratorRole (c :: cs) cid r =
        (if c.id = cid then { c with role := r } else c) ::
          updateCollaboratorRole cs cid r := rfl
    rw [hstep]
    by_cases hid : c.id = cid
    · rw [if_pos hid, ownerEntries_cons]
      simp only [if_neg hr]
      exact ih h
    · rw [if_neg hid, ownerEntries_cons, if_neg hc]
      exact ih h

lemma ownerEntries_changeRole (roster : List Collaborator) (ow : Collaborator)
    (cid : String) (r : Role) (hx : ow.id ≠ cid) (hr : r ≠ Role.owner)
    (h : ownerEntries roster = [ow]) :
    ownerEntries (updateCollaboratorRole roster cid r) = [ow] := by
  induction roster with
  | nil => simp [ownerEntries] at h
  | cons c cs ih =>
    have hstep : updateCollaboratorRole (c :: cs) cid r =
        (if c.id = cid then { c with role := r } else c) ::
          updateCollaboratorRole cs cid r := rfl
    by_cases hc : c.role = Role.owner
    · rw [ownerEntries_cons, if_pos hc] at h
      obtain ⟨hcow, hnil⟩ : c = ow ∧ ownerEntries cs = [] := by simpa using h
      have hcid : c.id ≠ cid := by rw [hcow]; exact hx
      rw [hstep, if_neg hcid, ownerEntries_cons, if_pos hc, hcow,
        ownerEntries_update_nil cs cid r hr hnil]
    · rw [ownerEntries_cons, if_neg hc] at h
      rw [hstep]
      by_cases hid : c.id = cid
      · rw [if_pos hid, ownerEntries_cons]
        simp only [if_neg hr]
        exact ih h
      · rw [if_neg hid, ownerEntries_cons, if_neg hc]
        exact ih h

/-- C8 counterexample: a single `remove` targeting the owner's id breaks the
exactly-one-owner invariant — starting from a roster whose unique owner is
"u1", `applyOps` with `[remove "u1"]` yields a roster with no owner entry at
all (and a single `changeRole` on "u1" would demote the owner likewise). -/
theorem owner_invariant_cex :
    ownerEntries
        [⟨"u1", "You", "you@example.com", "a1", Role.owner, true, none, none⟩,
         ⟨"u2", "Sarah", "sarah@company.com", "a2", Role.editor, true, none, none⟩] =
      [⟨"u1", "You", "you@example.com", "a1", Role.owner, true, none, none⟩] ∧
    ownerEntries
        (applyOps
          [⟨"u1", "You", "you@example.com", "a1", Role.owner, true, none, none⟩,
           ⟨"u2", "Sarah", "sarah@company.com", "a2", Role.editor, true, none, none⟩]
          [RosterOp.remove "u1"]) = [] := by
  constructor <;> rfl

/-- C8 amended: the exactly-one-owner invariant holds only for the operation
sequences the UI can actually issue — invites whose role is not owner, and
remove/changeRole calls that never target the owner's id (with non-owner new
roles).  Under that restriction, any finite sequence of operations preserves
the unique owner entry unchanged.  Unrestricted calls can delete or demote
the owner, as the counterexample shows. -/
theorem owner_invariant_safe (ops : List RosterOp) (roster : List Collaborator)
    (ow : Collaborator) (h : ownerEntries roster = [ow])
    (hsafe : ∀ op ∈ ops, opSafe ow.id op = true) :
    ownerEntries (applyOps roster ops) = [ow] := by
  induction ops generalizing roster with
  | nil => exact h
  | cons op ops ih =>
    have hop := hsafe op (List.mem_cons_self _ _)
    have hrest : ∀ o ∈ ops, opSafe ow.id o = true :=
      fun o ho => hsafe o (List.mem_cons_of_mem _ ho)
    have hstep : applyOps roster (op :: ops) = applyOps (applyOp roster op) ops := rfl
    rw [hstep]
    refine ih (applyOp roster op) ?_ hrest
    cases op with
    | invite nid em r =>
      have hr : r ≠ Role.owner := by simpa [opSafe] using hop
      exact ownerEntries_invite roster ow nid em r hr h
    | remove cid =>
      have hx : cid ≠ ow.id := by simpa [opSafe] using hop
      exact ownerEntries_remove roster ow cid (Ne.symm hx) h
    | changeRole cid r =>
      obtain ⟨hx, hr⟩ : cid ≠ ow.id ∧ r ≠ Role.owner := by
        simpa [opSafe] using hop
      exact ownerEntries_changeRole roster ow cid r (Ne.symm hx) hr h

/-- Witness for the amended C8 theorem: an invite, a demotion and a removal,
none touching the owner, preserve the unique owner entry. -/
theorem owner_invariant_safe_witness :
    ownerEntries
        (applyOps
          [⟨"u1", "You", "you@example.com", "a1", Role.owner, true, none, none⟩,
           ⟨"u2", "Sarah", "sarah@company.com", "a2", Role.editor, true, none, none⟩]
          [RosterOp.invite "99" "a@b.com" Role.editor,
           RosterOp.changeRole "u2" Role.viewer,
           RosterOp.remove "u2"]) =
      [⟨"u1", "You", "you@example.com", "a1", Role.owner, true, none, none⟩] :=
  owner_invariant_safe
    [RosterOp.invite "99" "a@b.com" Role.editor,
     RosterOp.changeRole "u2" Role.viewer,
     RosterOp.remove "u2"]
    [⟨"u1", "You", "you@example.com", "a1", Role.owner, true, none, none⟩,
     ⟨"u2", "Sarah", "sarah@company.com", "a2", Role.editor, true, none, none⟩]
    ⟨"u1", "You", "you@example.com", "a1", Role.owner, true, none, none⟩
    (by decide) (by decide)

/- ----------------------------------------------------------------
   Dashboard search (src/components/dashboard.tsx lines 131-133):

   const filteredDocuments = documents.filter((doc) =>
     doc.title.toLowerCase().includes(searchQuery.toLowerCase())
   );

   Strings are handled at the character-list level; `toLowerCase` is modelled
   with `Char.toLower` and `String.prototype.includes` with a contiguous
   substring search (true on the empty needle, as in JavaScript).
   ---------------------------------------------------------------- -/

/-- `s.toLowerCase()`, as a character list. -/
def toLowerChars (s : String) : List Char :=
  s.toList.map Char.toLower

/-- Whether the first list is a prefix of the second. -/
def isPrefixChars : List Char → List Char → Bool
  | [], _ => true
  | _ :: _, [] => false
  | a :: as, b :: bs => a == b && isPrefixChars as bs

/-- `hay.includes(needle)`: some tail of `hay` starts with `needle`; the
empty needle is always included. -/
def strIncludes (needle : List Char) : List Char → Bool
  | [] => needle.isEmpty
  | b :: bs => isPrefixChars needle (b :: bs) || strIncludes needle bs

/-- The filter predicate of the dashboard search: the lowercased title
contains the lowercased query. -/
def titleMatches (doc : Document) (q : String) : Bool :=
  strIncludes (toLowerChars q) (toLowerChars doc.title)

/-- `filteredDocuments` (dashboard.tsx lines 131-133). -/
def filteredDocuments (documents : List Document) (searchQuery : String) :
    List Document :=
  documents.filter (fun doc => titleMatches doc searchQuery)

lemma strIncludes_nil_needle (hay : List Char) : strIncludes [] hay = true := by
  induction hay with
  | nil => rfl
  | cons b bs ih => simp [strIncludes, isPrefixChars]

/-- C10: dashboard search filtering.  The filtered list contains exactly the
documents whose lowercased title contains the lowercased query as a
contiguous substring; it is a sublist of the input (original order is
preserved); and the empty query leaves the list unchanged. -/
theorem dashboard_filter_spec (documents : List Document) (q : String) :
    (∀ d, d ∈ filteredDocuments documents q ↔
        d ∈ documents ∧ titleMatches d q = true) ∧
    (filteredDocuments documents q).Sublist documents ∧
    filteredDocuments documents "" = documents := by
  refine ⟨?_, ?_, ?_⟩
  · intro d
    simp [filteredDocuments, List.mem_filter]
  · exact List.filter_sublist documents
  · rw [filteredDocuments, List.filter_eq_self]
    intro d _
    have hq : toLowerChars "" = [] := rfl
    simp [titleMatches, hq, strIncludes_nil_needle]

end DocsClone
